import Mathlib

/-!
Verification of the product-catalog assistant request handler
(`src/app/api/chat/route.ts`).

The development shallowly embeds the handler's logic:
* the regular-expression field extractor `extractProductInfo`,
* the per-marketplace listing generator `generatePlatformListing`
  together with its static `PLATFORM_FIELDS` table,
* the intent classifier `analyzeMessage`, and
* the request handler `POST`.

JavaScript regular expressions are embedded by a small backtracking
matcher (`reMatch`) over a pattern AST, with the same alternation order and
greedy/lazy repetition order as the JS engine; each of the source's
patterns has exactly one capture group, so a pattern is represented as a
(prefix, capture, suffix) triple.  JS objects holding string fields become
association lists with JS assignment semantics (`objSet`).  The wall-clock
values produced by `Date.now()` become explicit numeric parameters, and
`parseFloat`/`* 1.2`/`.toFixed(2)` are modelled in exact rational
arithmetic (on the digit strings the price pattern can capture, the two
agree at every value used in a theorem below).
-/

set_option maxHeartbeats 1000000

/-- Whitespace as matched by the JS `\s` class and `String.prototype.trim`
(restricted to the ASCII range; no input in this development contains
non-ASCII whitespace). -/
def wsChar (c : Char) : Bool :=
  c = ' ' || c = '\t' || c = '\n' || c = '\r' || c = '\x0b' || c = '\x0c'

/-- The character class `[\s:]` used as label/value separator. -/
def sepChar (c : Char) : Bool :=
  wsChar c || c = ':'

/-- The JS `.` (dot) without the `s` flag: any char except line terminators. -/
def dotChar (c : Char) : Bool :=
  c ≠ '\n' && c ≠ '\r'

/-- The JS `\d` class. -/
def digitChar (c : Char) : Bool :=
  '0' ≤ c && c ≤ '9'

/-- `String.prototype.trim` on a character list. -/
def trimChars (l : List Char) : List Char :=
  ((l.dropWhile wsChar).reverse.dropWhile wsChar).reverse

/-- JS `x || d` for a possibly-absent string `x` (absent and `""` are falsy). -/
def jsOr (o : Option String) (d : String) : String :=
  match o with
  | some s => if s = "" then d else s
  | none => d

/-- JS `x || d` for a string `x` (only `""` is falsy). -/
def jsOrS (s d : String) : String :=
  if s = "" then d else s

/-- JS `String.prototype.toLowerCase` (ASCII). -/
def jsToLower (s : String) : String :=
  String.mk (s.data.map Char.toLower)

/-- JS `String.prototype.toUpperCase` (ASCII). -/
def jsToUpper (s : String) : String :=
  String.mk (s.data.map Char.toUpper)

/-- Substring test on character lists (JS `String.prototype.includes`). -/
def listIncludes (needle : List Char) : List Char → Bool
  | [] => needle.isEmpty
  | l@(_ :: t) => needle.isPrefixOf l || listIncludes needle t

/-- JS `hay.includes(needle)`. -/
def jsIncludes (hay needle : String) : Bool :=
  listIncludes needle.data hay.data

/-! ### A backtracking regex matcher

The AST covers exactly the constructs used by the source's patterns:
case-insensitive literals, alternation (tried left to right), sequencing,
single-character classes, greedy `+`/`*` and lazy `+?` over a character
class, greedy `?`, and the `$` anchor.  `reMatch` is written in
continuation-passing style; `Option`'s `<|>` realises backtracking, so the
first alternative in source order that lets the continuation succeed
wins, exactly as in the JS engine. -/

inductive RE where
  | epsilon : RE
  | lit : List Char → RE
  | cls : (Char → Bool) → RE
  | alt : RE → RE → RE
  | seq : RE → RE → RE
  | plusGreedy : (Char → Bool) → RE
  | plusLazy : (Char → Bool) → RE
  | starGreedy : (Char → Bool) → RE
  | opt : RE → RE
  | eos : RE

/-- Case-insensitive literal match: `pat` is stored lowercased; returns the
remainder of `s` after the literal. -/
def ciPrefixRest (pat : List Char) (s : List Char) : Option (List Char) :=
  match pat, s with
  | [], rest => some rest
  | _ :: _, [] => none
  | pc :: pt, c :: t => if c.toLower = pc then ciPrefixRest pt t else none

/-- Greedy `p+`: consume at least one `p`-char, longest continuation first. -/
def matchPlusGreedy {β : Type} (p : Char → Bool) :
    List Char → (List Char → Option β) → Option β
  | [], _ => none
  | c :: rest, k => if p c then (matchPlusGreedy p rest k <|> k rest) else none

/-- Lazy `p+?`: consume at least one `p`-char, shortest continuation first. -/
def matchPlusLazy {β : Type} (p : Char → Bool) :
    List Char → (List Char → Option β) → Option β
  | [], _ => none
  | c :: rest, k => if p c then (k rest <|> matchPlusLazy p rest k) else none

/-- Greedy `p*`. -/
def matchStarGreedy {β : Type} (p : Char → Bool) (s : List Char)
    (k : List Char → Option β) : Option β :=
  matchPlusGreedy p s k <|> k s

/-- Match a regex at the start of `s`; calls `k` on each candidate
remainder in backtracking order and returns `k`'s first success. -/
def reMatch {β : Type} : RE → List Char → (List Char → Option β) → Option β
  | .epsilon, s, k => k s
  | .lit cs, s, k =>
    match ciPrefixRest cs s with
    | some rest => k rest
    | none => none
  | .cls p, s, k =>
    match s with
    | [] => none
    | c :: t => if p c then k t else none
  | .alt r1 r2, s, k => reMatch r1 s k <|> reMatch r2 s k
  | .seq r1 r2, s, k => reMatch r1 s (fun s1 => reMatch r2 s1 k)
  | .plusGreedy p, s, k => matchPlusGreedy p s k
  | .plusLazy p, s, k => matchPlusLazy p s k
  | .starGreedy p, s, k => matchStarGreedy p s k
  | .opt r, s, k => reMatch r s k <|> k s
  | .eos, s, k => if s.isEmpty then k s else none

/-- Each source pattern has one capture group; match
`pre (cap) post` at the start of `s` and return the captured characters. -/
def patMatchAt (pre cap post : RE) (s : List Char) : Option (List Char) :=
  reMatch pre s (fun s1 =>
    reMatch cap s1 (fun s2 =>
      reMatch post s2 (fun _ => some (s1.take (s1.length - s2.length)))))

/-- `String.prototype.match`: try every start position left to right. -/
def patSearch (pre cap post : RE) : List Char → Option (List Char)
  | [] => patMatchAt pre cap post []
  | l@(_ :: t) => patMatchAt pre cap post l <|> patSearch pre cap post t

/-- Alternation of case-insensitive literal labels, in source order. -/
def altOf : List String → RE
  | [] => .lit []
  | [s] => .lit (s.data.map Char.toLower)
  | s :: t => .alt (.lit (s.data.map Char.toLower)) (altOf t)

/-- `(?:\n|$)` -/
def nlOrEos : RE := .alt (.lit ['\n']) .eos

/-- `(?:\n\n|$)` -/
def blankOrEos : RE := .alt (.lit ['\n', '\n']) .eos

/-- Prefix of the rest-of-line patterns: `(?:labels)[\s:]+`. -/
def linePre (labels : List String) : RE :=
  .seq (altOf labels) (.plusGreedy sepChar)

/-- The capture `(.+?)` of the rest-of-line patterns. -/
def lineCap : RE := .plusLazy dotChar

/-- Prefix of the price pattern:
`(?:price|selling price|mrp)[\s:]+(?:rs\.?|â‚¹)?\s*`
(the currency alternative appears in the source file as the three
characters shown, the UTF-8 bytes of the rupee sign read back as
Latin-1). -/
def pricePre : RE :=
  .seq (altOf ["price", "selling price", "mrp"])
    (.seq (.plusGreedy sepChar)
      (.seq (.opt (.alt (.seq (.lit ['r', 's']) (.opt (.lit ['.']))) (.lit "â‚¹".data)))
        (.starGreedy wsChar)))

/-- The capture `(\d+(?:\.\d+)?)` of the price pattern. -/
def priceCap : RE :=
  .seq (.plusGreedy digitChar) (.opt (.seq (.lit ['.']) (.plusGreedy digitChar)))

/-- Output of `extractProductInfo`: one optional string per semantic key;
a key is `none` exactly when its pattern did not match. -/
structure ExtractedFields where
  name : Option String := none
  brand : Option String := none
  price : Option String := none
  category : Option String := none
  description : Option String := none
  size : Option String := none
  color : Option String := none
  material : Option String := none
  weight : Option String := none
  sku : Option String := none
  deriving Repr, DecidableEq

/-- Run one pattern over the raw text and trim the capture
(`match[1].trim()`). -/
def runPat (pre cap post : RE) (cs : List Char) : Option String :=
  (patSearch pre cap post cs).map (fun l => String.mk (trimChars l))

/-- `extractProductInfo` from the source: each pattern scans the whole raw
text independently.  (The source also computes a `lines` array from the
input, but never uses it.) -/
def extractProductInfo (rawData : String) : ExtractedFields :=
  let cs := rawData.data
  { name := runPat (linePre ["product name", "name", "title"]) lineCap nlOrEos cs
    brand := runPat (linePre ["brand", "manufacturer"]) lineCap nlOrEos cs
    price := runPat pricePre priceCap .epsilon cs
    category := runPat (linePre ["category", "type"]) lineCap nlOrEos cs
    description := runPat (linePre ["description", "details"]) lineCap blankOrEos cs
    size := runPat (linePre ["size"]) lineCap nlOrEos cs
    color := runPat (linePre ["color", "colour"]) lineCap nlOrEos cs
    material := runPat (linePre ["material", "fabric"]) lineCap nlOrEos cs
    weight := runPat (linePre ["weight"]) lineCap nlOrEos cs
    sku := runPat (linePre ["sku", "product id", "item code"]) lineCap nlOrEos cs }

/-! ### The platform table and the listing generator -/

/-- The four marketplace identifiers (the source confines the platform
strings to the keys of `PLATFORM_FIELDS`). -/
inductive Platform where
  | amazon | flipkart | meesho | myntra
  deriving Repr, DecidableEq

/-- The lower-case platform identifier string. -/
def platName : Platform → String
  | .amazon => "amazon"
  | .flipkart => "flipkart"
  | .meesho => "meesho"
  | .myntra => "myntra"

structure PlatformSpec where
  required : List String
  optional : List String
  deriving Repr, DecidableEq

/-- The static `PLATFORM_FIELDS` table. -/
def PLATFORM_FIELDS : Platform → PlatformSpec
  | .amazon =>
    { required := ["Product Name", "Brand", "Category", "Price", "MRP", "SKU",
                   "Description", "Key Features", "Images"]
      optional := ["Weight", "Dimensions", "Color", "Size", "Material",
                   "HSN Code", "GST"] }
  | .flipkart =>
    { required := ["Product Name", "Brand", "Category", "Listing Price", "MRP",
                   "Product ID", "Description", "Key Features", "Product Image"]
      optional := ["Package Weight", "Package Dimensions", "Color", "Size",
                   "Material", "HSN Code"] }
  | .meesho =>
    { required := ["Product Name", "Category", "Price", "Product Description",
                   "Product Images", "Size", "Color"]
      optional := ["Brand", "Material", "Weight", "HSN Code", "Return Policy"] }
  | .myntra =>
    { required := ["Product Name", "Brand", "Category", "MRP", "Selling Price",
                   "Style ID", "Description", "Size", "Color", "Images"]
      optional := ["Material", "Care Instructions", "Occasion", "Pattern", "Fit"] }

/-- `field.replace(/\s+/g, '_')`: collapse each whitespace run to one `_`. -/
def collapseWs (l : List Char) : List Char :=
  (l.foldl
    (fun acc c =>
      if wsChar c then (if acc.2 then acc else (acc.1 ++ ['_'], true))
      else (acc.1 ++ [c], false))
    (([] : List Char), false)).1

/-- The output key for one field label:
`platform.toUpperCase() ++ "_" ++ field.replace(/\s+/g, '_')`. -/
def fkey (p : Platform) (field : String) : String :=
  jsToUpper (platName p) ++ "_" ++ String.mk (collapseWs field.data)

/-- A JS object holding string values, as an association list in key
insertion order. -/
abbrev Obj := List (String × String)

/-- JS property assignment `o[k] = v`: overwrite in place if the key
exists, else append.  (A JS object never holds two entries with the same
key, so replacing the first occurrence is exact.) -/
def objSet : Obj → String → String → Obj
  | [], k, v => [(k, v)]
  | e :: t, k, v => if e.1 = k then (k, v) :: t else e :: objSet t k v

/-- JS property read `o[k]` (`none` for a missing key). -/
def objGet : Obj → String → Option String
  | [], _ => none
  | e :: t, k => if e.1 = k then some e.2 else objGet t k

/-- Number of entries of `o` carrying key `k`. -/
def countKey : Obj → String → Nat
  | [], _ => 0
  | e :: t, k => (if e.1 = k then 1 else 0) + countKey t k

/-- `Object.assign(target, src)`: assign each `src` entry in order. -/
def mergeObj (target src : Obj) : Obj :=
  src.foldl (fun acc e => objSet acc e.1 e.2) target

/-- Decimal digits to a natural number. -/
def digitsToNat (l : List Char) : Nat :=
  l.foldl (fun n c => 10 * n + (c.toNat - '0'.toNat)) 0

/-- A non-negative fraction, kept unreduced so that all arithmetic is
plain `Nat` arithmetic.  This represents the exact value of the JS
numbers flowing through the MRP derivation (which are non-negative,
since the price capture is `\d+(\.\d+)?`). -/
structure PosFrac where
  num : Nat
  den : Nat
  deriving Repr, DecidableEq

def fracMul (a b : PosFrac) : PosFrac :=
  { num := a.num * b.num, den := a.den * b.den }

def fracAdd (a b : PosFrac) : PosFrac :=
  { num := a.num * b.den + b.num * a.den, den := a.den * b.den }

def fracFloor (a : PosFrac) : Nat :=
  a.num / a.den

/-- `parseFloat`, modelled in exact arithmetic on the digit-leading
shapes `\d+(\.\d+)?` that the price capture group can produce (the
capture always starts with a digit, so parseFloat-accepted shapes such
as ".5" never reach this function in the program); any other input is
treated as NaN (`none`).  The model computes the exact decimal value
rather than the nearest IEEE double; no theorem below asserts its value
except at "500", where the double and the exact value coincide. -/
def jsParseFloat (s : String) : Option PosFrac :=
  let ip := s.data.takeWhile digitChar
  let rest := s.data.drop ip.length
  if ip.isEmpty then none
  else
    match rest with
    | '.' :: r2 =>
      let fp := r2.takeWhile digitChar
      some { num := digitsToNat ip * 10 ^ fp.length + digitsToNat fp
             den := 10 ^ fp.length }
    | _ => some { num := digitsToNat ip, den := 1 }

/-- `q.toFixed(2)` for a non-negative value, in exact arithmetic (round
half up to two decimal places). -/
def toFixed2 (q : PosFrac) : String :=
  let n := fracFloor (fracAdd (fracMul q { num := 100, den := 1 })
    { num := 1, den := 2 })
  let ip := n / 100
  let fp := n % 100
  toString ip ++ "." ++ (if fp < 10 then "0" ++ toString fp else toString fp)

/-- `(parseFloat(price) * 1.2).toFixed(2)` in exact arithmetic, with
`1.2` as the fraction 6/5.  The source evaluates in IEEE doubles, whose
last rounded digit can differ from the exact value on some inputs
(e.g. "1.0625"); the only MRP value any theorem below asserts is at
price "500", where the double product is exactly 600 and both sides
yield "600.00". -/
def mrpOf (price : String) : String :=
  match jsParseFloat price with
  | some q => toFixed2 (fracMul q { num := 6, den := 5 })
  | none => "NaN"

/-- The `fieldMapping` table of `generatePlatformListing` as a function of
the field label.  `n1 n2 n3` stand for the three `Date.now()` reads in the
`SKU` / `Product ID` / `Style ID` entries (each evaluated only when
`extractedData.sku` is falsy).  A label outside the table maps to `""`:
in the source it yields `undefined`, which the two consumers
(`fieldMapping[field] || '[REQUIRED]'` and `if (fieldMapping[field])`)
treat exactly like the empty string. -/
def fieldMapping (e : ExtractedFields) (n1 n2 n3 : Nat) (field : String) : String :=
  if field = "Product Name" then jsOr e.name ""
  else if field = "Brand" then jsOr e.brand "Generic"
  else if field = "Category" then jsOr e.category ""
  else if field = "Price" then jsOr e.price ""
  else if field = "Selling Price" then jsOr e.price ""
  else if field = "Listing Price" then jsOr e.price ""
  else if field = "MRP" then
    (match e.price with
     | some p => if p = "" then "" else mrpOf p
     | none => "")
  else if field = "SKU" then jsOr e.sku ("SKU" ++ toString n1)
  else if field = "Product ID" then jsOr e.sku ("PID" ++ toString n2)
  else if field = "Style ID" then jsOr e.sku ("STYLE" ++ toString n3)
  else if field = "Description" then jsOr e.description ""
  else if field = "Product Description" then jsOr e.description ""
  else if field = "Key Features" then
    (match e.description with
     | some d =>
       if d = "" then ""
       else String.intercalate ". " (((d.splitOn ".").take 5))
     | none => "")
  else if field = "Size" then jsOr e.size ""
  else if field = "Color" then jsOr e.color ""
  else if field = "Material" then jsOr e.material ""
  else if field = "Weight" then jsOr e.weight ""
  else if field = "Package Weight" then jsOr e.weight ""
  else if field = "Images" then "[Image URLs]"
  else if field = "Product Image" then "[Image URLs]"
  else if field = "Product Images" then "[Image URLs]"
  else ""

/-- One step of the required-fields loop:
`listing[key] = fieldMapping[field] || '[REQUIRED]'`. -/
def reqStep (fm : String → String) (p : Platform) (acc : Obj) (f : String) : Obj :=
  objSet acc (fkey p f) (jsOrS (fm f) "[REQUIRED]")

/-- One step of the optional-fields loop:
`if (fieldMapping[field]) listing[key] = fieldMapping[field]`. -/
def optStep (fm : String → String) (p : Platform) (acc : Obj) (f : String) : Obj :=
  if fm f = "" then acc else objSet acc (fkey p f) (fm f)

/-- `generatePlatformListing` from the source. -/
def generatePlatformListing (e : ExtractedFields) (n1 n2 n3 : Nat)
    (platform : Platform) : Obj :=
  let fm := fieldMapping e n1 n2 n3
  let fields := PLATFORM_FIELDS platform
  (fields.optional).foldl (optStep fm platform)
    ((fields.required).foldl (reqStep fm platform) [])

/-! ### Intent classification and the request handler -/

/-- The intent selected by `analyzeMessage` (a string in the source). -/
def intentOf (message : String) : String :=
  let ml := jsToLower message
  if jsIncludes ml "catalog" || jsIncludes ml "listing" || jsIncludes ml "product" then
    "catalog"
  else if jsIncludes ml "task" || jsIncludes ml "remind" || jsIncludes ml "schedule" then
    "task"
  else if jsIncludes ml "help" || jsIncludes ml "how" then "help"
  else if jsIncludes ml "analyze" || jsIncludes ml "check" then "analyze"
  else "general"

/-- The platform list collected by `analyzeMessage`, with the
default-to-all-four rule for the catalog intent. -/
def platformsOf (message : String) : List Platform :=
  let ml := jsToLower message
  let base :=
    (if jsIncludes ml "amazon" then [Platform.amazon] else []) ++
    (if jsIncludes ml "flipkart" then [Platform.flipkart] else []) ++
    (if jsIncludes ml "meesho" then [Platform.meesho] else []) ++
    (if jsIncludes ml "myntra" then [Platform.myntra] else [])
  if base.isEmpty && (intentOf message == "catalog") then
    [Platform.amazon, Platform.flipkart, Platform.meesho, Platform.myntra]
  else base

structure AnalyzeResult where
  intent : String
  platforms : List Platform
  deriving Repr, DecidableEq

/-- `analyzeMessage` from the source. -/
def analyzeMessage (message : String) : AnalyzeResult :=
  { intent := intentOf message, platforms := platformsOf message }

/-- The raw extracted fields as an object (`{ ...extracted }`), keys in the
source's pattern insertion order, present only when matched. -/
def extractedToObj (e : ExtractedFields) : Obj :=
  ([("name", e.name), ("brand", e.brand), ("price", e.price),
    ("category", e.category), ("description", e.description),
    ("size", e.size), ("color", e.color), ("material", e.material),
    ("weight", e.weight), ("sku", e.sku)].filterMap
    (fun kv => kv.2.map (fun v => (kv.1, v))))

/-- The new catalog row: the raw extracted fields merged with one listing
per resolved platform.  `clock i` is the value of the `i`-th `Date.now()`
read of the request (three potential reads per platform). -/
def buildNewItem (e : ExtractedFields) (platforms : List Platform)
    (clock : Nat → Nat) : Obj :=
  (platforms.enum.foldl
    (fun acc ip =>
      mergeObj acc
        (generatePlatformListing e (clock (3 * ip.1)) (clock (3 * ip.1 + 1))
          (clock (3 * ip.1 + 2)) ip.2))
    (extractedToObj e))

/-- `platforms.join(', ')` -/
def joinPlat (platforms : List Platform) : String :=
  String.intercalate ", " (platforms.map platName)

/-- The response template of the catalog branch when raw data is present. -/
def catalogSuccessResponse (ext : ExtractedFields) (platforms : List Platform) : String :=
  "I\x27ve processed your product data and created listings for " ++
  joinPlat platforms ++ ".\n\nProduct: " ++ jsOr ext.name "New Product" ++ "\n" ++
  (match ext.brand with
   | some b => if b = "" then "" else "Brand: " ++ b
   | none => "") ++ "\n" ++
  (match ext.price with
   | some pr => if pr = "" then "" else "Price: â‚¹" ++ pr
   | none => "") ++
  "\n\nGenerated fields for:\n" ++
  String.intercalate "\n"
    (platforms.map (fun p =>
      "- " ++ jsToUpper (platName p) ++ ": " ++
      toString (PLATFORM_FIELDS p).required.length ++ " required fields filled")) ++
  "\n\nThe catalog has been updated. Please review and add images, then download to use for listing."

/-- The response template of the catalog branch when raw data is absent. -/
def catalogGuidanceResponse (platforms : List Platform) : String :=
  "To create product listings, please:\n1. Upload your catalog file (Excel/CSV)\n2. Switch to the Catalog Manager tab\n3. Paste your raw product data in the text area\n4. I\x27ll automatically format it for " ++
  (if platforms.length > 0 then joinPlat platforms else "all platforms") ++
  "\n\nOr you can tell me the product details and I\x27ll help format them!"

/-- The missing-required-fields list computed by the analyze branch over
the first catalog row. -/
def missingFieldsOf (platforms : List Platform) (item : Obj) : List String :=
  platforms.foldl
    (fun acc p =>
      (PLATFORM_FIELDS p).required.foldl
        (fun acc2 f =>
          let v := objGet item (fkey p f)
          if v = none || v = some "" || v = some "[REQUIRED]" then
            acc2 ++ [platName p ++ ": " ++ f]
          else acc2)
        acc)
    []

/-- Analyze-branch response when missing fields were found. -/
def analysisMissingResponse (missing : List String) : String :=
  "Analysis complete! Found " ++ toString missing.length ++
  " missing required fields:\n\n" ++
  String.intercalate "\n" (missing.take 10) ++
  "\n\nProvide the missing information and I\x27ll update your catalog."

/-- Analyze-branch response when no missing fields were found. -/
def analysisCompleteResponse (platforms : List Platform) : String :=
  "Great! Your catalog looks complete for " ++ joinPlat platforms ++
  ". All required fields are filled. You\x27re ready to list your products!"

/-- Analyze-branch response for an absent/empty catalog. -/
def noCatalogResponse : String :=
  "No catalog loaded. Please upload a catalog file first."

/-- `1. a\n2. b\n...` -/
def numberedList (l : List String) : String :=
  String.intercalate "\n" (l.enum.map (fun fi => toString (fi.1 + 1) ++ ". " ++ fi.2))

/-- Help-branch response when the message mentions requirements/guidelines. -/
def requirementsResponse (p : Platform) : String :=
  jsToUpper (platName p) ++ " Listing Requirements:\n\nRequired Fields:\n" ++
  numberedList (PLATFORM_FIELDS p).required ++
  "\n\nOptional but Recommended:\n" ++
  numberedList (PLATFORM_FIELDS p).optional ++
  "\n\nTips:\n- Use high-quality images (minimum 1000x1000px)\n- Write detailed descriptions with keywords\n- Include accurate measurements and specifications\n- Add all relevant attributes for better discoverability"

/-- General help-branch response (emoji bytes as they appear in the
source file). -/
def helpGeneralResponse : String :=
  "I\x27m JARVIS, your personal AI assistant! I can help you with:\n\nðŸ“‹ Daily Tasks:\n- Task reminders and scheduling\n- Quick notes and organization\n- Daily planning\n\nðŸ›’ E-commerce Catalog Management:\n- Format product data for Amazon, Flipkart, Meesho, Myntra\n- Auto-fill catalog sheets with product information\n- Check for missing required fields\n- Generate platform-specific listings\n\nðŸ“¦ How to use:\n1. Upload your catalog Excel file\n2. Paste raw product data in the Catalog Manager\n3. I\x27ll automatically format it for all platforms\n4. Download the updated catalog\n\nJust ask me anything or paste your product data!"

/-- Task-branch response. -/
def taskResponse : String :=
  "Task Management:\n\nI can help you with:\n- Set reminders: \"Remind me to check inventory at 3 PM\"\n- Daily schedule: \"What\x27s on my agenda today?\"\n- Quick tasks: \"Add checking Amazon orders to my todo list\"\n\nFor catalog-related tasks, switch to the Catalog Manager tab and I\x27ll help you process your product listings efficiently!"

/-- Default-branch response. -/
def defaultResponse : String :=
  "Hello! I\x27m JARVIS, ready to assist you. I can help with:\n\n- Daily task management and reminders\n- E-commerce catalog processing for Amazon, Flipkart, Meesho, and Myntra\n- Product listing preparation and data formatting\n\nWhat would you like help with today?"

structure ChatResult where
  response : String
  updatedCatalog : Option (List Obj)
  deriving Repr, DecidableEq

/-- The request handler `POST` on a well-formed request.  An absent
`catalogData` is the empty list; `clock` supplies the `Date.now()` reads
of the catalog branch. -/
def POST (message : String) (catalogData : List Obj) (rawData : String)
    (clock : Nat → Nat) : ChatResult :=
  let intent := intentOf message
  let platforms := platformsOf message
  if intent = "catalog" then
    if rawData = "" then
      { response := catalogGuidanceResponse platforms, updatedCatalog := none }
    else
      let extracted := extractProductInfo rawData
      let newItem := buildNewItem extracted platforms clock
      { response := catalogSuccessResponse extracted platforms
        updatedCatalog := some (catalogData ++ [newItem]) }
  else if intent = "analyze" then
    match catalogData with
    | [] => { response := noCatalogResponse, updatedCatalog := none }
    | item :: _ =>
      let missing := missingFieldsOf platforms item
      if missing.length > 0 then
        { response := analysisMissingResponse missing, updatedCatalog := none }
      else
        { response := analysisCompleteResponse platforms, updatedCatalog := none }
  else if intent = "help" then
    { response :=
        if jsIncludes (jsToLower message) "requirement" ||
           jsIncludes (jsToLower message) "guideline" then
          requirementsResponse (platforms.headD Platform.amazon)
        else helpGeneralResponse
      updatedCatalog := none }
  else if intent = "task" then
    { response := taskResponse, updatedCatalog := none }
  else
    { response := defaultResponse, updatedCatalog := none }

/-! ### Association-list lemmas for the listing object -/

theorem objGet_objSet_self (o : Obj) (k v : String) :
    objGet (objSet o k v) k = some v := by
  induction o with
  | nil => simp [objSet, objGet]
  | cons e t ih =>
    by_cases h : e.1 = k <;> simp [objSet, objGet, h, ih]

theorem objGet_objSet_ne (o : Obj) (k v q : String) (h : ¬ k = q) :
    objGet (objSet o k v) q = objGet o q := by
  induction o with
  | nil => simp [objSet, objGet, h]
  | cons e t ih =>
    by_cases h1 : e.1 = k
    · have h2 : ¬ e.1 = q := fun hq => h (h1 ▸ hq)
      simp [objSet, objGet, h1, h, h2]
    · have h3 : ¬ q = k := fun hq => h hq.symm
      by_cases h2 : e.1 = q <;> simp [objSet, objGet, h1, h2, h3, ih]

theorem countKey_objSet_self (o : Obj) (k v : String) :
    countKey (objSet o k v) k =
      if countKey o k = 0 then 1 else countKey o k := by
  induction o with
  | nil => simp [objSet, countKey]
  | cons e t ih =>
    by_cases h : e.1 = k
    · simp [objSet, countKey, h]
    · simp only [objSet, h, if_neg, countKey, ih]
      by_cases h2 : countKey t k = 0 <;> simp [h, h2]

theorem countKey_objSet_ne (o : Obj) (k v q : String) (h : ¬ k = q) :
    countKey (objSet o k v) q = countKey o q := by
  induction o with
  | nil => simp [objSet, countKey, h]
  | cons e t ih =>
    by_cases h1 : e.1 = k
    · have h2 : ¬ e.1 = q := fun hq => h (h1 ▸ hq)
      simp [objSet, countKey, h1, h, h2]
    · have h3 : ¬ q = k := fun hq => h hq.symm
      by_cases h2 : e.1 = q <;> simp [objSet, countKey, h1, h2, h3, ih]

theorem mem_objSet (o : Obj) (k v : String) (x : String × String)
    (h : x ∈ objSet o k v) : x ∈ o ∨ x = (k, v) := by
  induction o with
  | nil => simpa [objSet] using h
  | cons e t ih =>
    by_cases h1 : e.1 = k
    · rw [objSet, if_pos h1] at h
      rcases List.mem_cons.mp h with h2 | h2
      · exact Or.inr h2
      · exact Or.inl (List.mem_cons_of_mem e h2)
    · rw [objSet, if_neg h1] at h
      rcases List.mem_cons.mp h with h2 | h2
      · exact Or.inl (h2 ▸ List.mem_cons_self e t)
      · rcases ih h2 with h3 | h3
        · exact Or.inl (List.mem_cons_of_mem e h3)
        · exact Or.inr h3

/-- The value the required-fields loop leaves under key `k` (later labels
overwrite earlier ones, hence the tail is consulted first). -/
def lookupReq (fm : String → String) (p : Platform) : List String → String → Option String
  | [], _ => none
  | f :: t, k =>
    match lookupReq fm p t k with
    | some v => some v
    | none => if fkey p f = k then some (jsOrS (fm f) "[REQUIRED]") else none

/-- The value the optional-fields loop leaves under key `k`. -/
def lookupOpt (fm : String → String) (p : Platform) : List String → String → Option String
  | [], _ => none
  | f :: t, k =>
    match lookupOpt fm p t k with
    | some v => some v
    | none => if fkey p f = k ∧ ¬ fm f = "" then some (fm f) else none

/-- Does some label of `ls` produce key `k`? -/
def hasReqKey (p : Platform) (ls : List String) (k : String) : Prop :=
  ∃ f ∈ ls, fkey p f = k

/-- Does some label of `ls` with a non-empty mapped value produce key `k`? -/
def hasOptKey (fm : String → String) (p : Platform) (ls : List String) (k : String) : Prop :=
  ∃ f ∈ ls, fkey p f = k ∧ ¬ fm f = ""

instance (p : Platform) (ls : List String) (k : String) :
    Decidable (hasReqKey p ls k) := by
  unfold hasReqKey; infer_instance

instance (fm : String → String) (p : Platform) (ls : List String) (k : String) :
    Decidable (hasOptKey fm p ls k) := by
  unfold hasOptKey; infer_instance

theorem objGet_foldl_req (fm : String → String) (p : Platform)
    (ls : List String) (acc : Obj) (k : String) :
    objGet (ls.foldl (reqStep fm p) acc) k =
      match lookupReq fm p ls k with
      | some v => some v
      | none => objGet acc k := by
  induction ls generalizing acc with
  | nil => simp [lookupReq]
  | cons f t ih =>
    rw [List.foldl_cons, ih, lookupReq]
    rcases lookupReq fm p t k with _ | v
    · by_cases h : fkey p f = k
      · simp [reqStep, h, objGet_objSet_self]
      · simp [reqStep, h, objGet_objSet_ne _ _ _ _ h]
    · simp

theorem objGet_foldl_opt (fm : String → String) (p : Platform)
    (ls : List String) (acc : Obj) (k : String) :
    objGet (ls.foldl (optStep fm p) acc) k =
      match lookupOpt fm p ls k with
      | some v => some v
      | none => objGet acc k := by
  induction ls generalizing acc with
  | nil => simp [lookupOpt]
  | cons f t ih =>
    rw [List.foldl_cons, ih, lookupOpt]
    rcases lookupOpt fm p t k with _ | v
    · by_cases hm : fm f = ""
      · simp [optStep, hm]
      · by_cases h : fkey p f = k
        · simp [optStep, hm, h, objGet_objSet_self]
        · simp [optStep, hm, h, objGet_objSet_ne _ _ _ _ h]
    · simp

theorem countKey_foldl_req (fm : String → String) (p : Platform)
    (ls : List String) (acc : Obj) (k : String) :
    countKey (ls.foldl (reqStep fm p) acc) k =
      if hasReqKey p ls k then
        (if countKey acc k = 0 then 1 else countKey acc k)
      else countKey acc k := by
  induction ls generalizing acc with
  | nil => simp [hasReqKey]
  | cons f t ih =>
    rw [List.foldl_cons, ih]
    by_cases h : fkey p f = k
    · have h1 : hasReqKey p (f :: t) k := ⟨f, List.mem_cons_self f t, h⟩
      rw [if_pos h1, reqStep, h, countKey_objSet_self]
      by_cases h2 : hasReqKey p t k <;> by_cases h3 : countKey acc k = 0 <;>
        simp [h2, h3]
    · have h1 : countKey (reqStep fm p acc f) k = countKey acc k := by
        rw [reqStep]; exact countKey_objSet_ne _ _ _ _ h
      have h2 : hasReqKey p (f :: t) k ↔ hasReqKey p t k := by
        constructor
        · rintro ⟨g, hg, hk⟩
          rcases List.mem_cons.mp hg with rfl | hg2
          · exact absurd hk h
          · exact ⟨g, hg2, hk⟩
        · rintro ⟨g, hg, hk⟩; exact ⟨g, List.mem_cons_of_mem f hg, hk⟩
      by_cases h3 : hasReqKey p t k <;>
        simp [h1, h3, h2]

theorem countKey_foldl_opt (fm : String → String) (p : Platform)
    (ls : List String) (acc : Obj) (k : String) :
    countKey (ls.foldl (optStep fm p) acc) k =
      if hasOptKey fm p ls k then
        (if countKey acc k = 0 then 1 else countKey acc k)
      else countKey acc k := by
  induction ls generalizing acc with
  | nil => simp [hasOptKey]
  | cons f t ih =>
    rw [List.foldl_cons, ih]
    by_cases hm : fm f = ""
    · have h1 : optStep fm p acc f = acc := by rw [optStep, if_pos hm]
      have h2 : hasOptKey fm p (f :: t) k ↔ hasOptKey fm p t k := by
        constructor
        · rintro ⟨g, hg, hk, hne⟩
          rcases List.mem_cons.mp hg with rfl | hg2
          · exact absurd hm hne
          · exact ⟨g, hg2, hk, hne⟩
        · rintro ⟨g, hg, hk, hne⟩; exact ⟨g, List.mem_cons_of_mem f hg, hk, hne⟩
      by_cases h3 : hasOptKey fm p t k <;> simp [h1, h3, h2]
    · by_cases h : fkey p f = k
      · have h1 : hasOptKey fm p (f :: t) k := ⟨f, List.mem_cons_self f t, h, hm⟩
        have h4 : optStep fm p acc f = objSet acc k (fm f) := by
          rw [optStep, if_neg hm, h]
        rw [if_pos h1, h4, countKey_objSet_self]
        by_cases h2 : hasOptKey fm p t k <;> by_cases h3 : countKey acc k = 0 <;>
          simp [h2, h3]
      · have h1 : countKey (optStep fm p acc f) k = countKey acc k := by
          rw [optStep, if_neg hm]; exact countKey_objSet_ne _ _ _ _ h
        have h2 : hasOptKey fm p (f :: t) k ↔ hasOptKey fm p t k := by
          constructor
          · rintro ⟨g, hg, hk, hne⟩
            rcases List.mem_cons.mp hg with rfl | hg2
            · exact absurd hk h
            · exact ⟨g, hg2, hk, hne⟩
          · rintro ⟨g, hg, hk, hne⟩; exact ⟨g, List.mem_cons_of_mem f hg, hk, hne⟩
        by_cases h3 : hasOptKey fm p t k <;> simp [h1, h3, h2]

theorem mem_foldl_req (fm : String → String) (p : Platform)
    (ls : List String) (acc : Obj) (x : String × String)
    (h : x ∈ ls.foldl (reqStep fm p) acc) :
    x ∈ acc ∨ ∃ f ∈ ls, x = (fkey p f, jsOrS (fm f) "[REQUIRED]") := by
  induction ls generalizing acc with
  | nil => exact Or.inl h
  | cons f t ih =>
    rw [List.foldl_cons] at h
    rcases ih (reqStep fm p acc f) h with h2 | ⟨g, hg, hx⟩
    · rcases mem_objSet acc (fkey p f) (jsOrS (fm f) "[REQUIRED]") x h2 with h3 | h3
      · exact Or.inl h3
      · exact Or.inr ⟨f, List.mem_cons_self f t, h3⟩
    · exact Or.inr ⟨g, List.mem_cons_of_mem f hg, hx⟩

theorem mem_foldl_opt (fm : String → String) (p : Platform)
    (ls : List String) (acc : Obj) (x : String × String)
    (h : x ∈ ls.foldl (optStep fm p) acc) :
    x ∈ acc ∨ ∃ f ∈ ls, ¬ fm f = "" ∧ x = (fkey p f, fm f) := by
  induction ls generalizing acc with
  | nil => exact Or.inl h
  | cons f t ih =>
    rw [List.foldl_cons] at h
    rcases ih (optStep fm p acc f) h with h2 | ⟨g, hg, hne, hx⟩
    · by_cases hm : fm f = ""
      · rw [optStep, if_pos hm] at h2
        exact Or.inl h2
      · rw [optStep, if_neg hm] at h2
        rcases mem_objSet acc (fkey p f) (fm f) x h2 with h3 | h3
        · exact Or.inl h3
        · exact Or.inr ⟨f, List.mem_cons_self f t, hm, h3⟩
    · exact Or.inr ⟨g, List.mem_cons_of_mem f hg, hne, hx⟩

/-- Full read characterization of the generated listing: the optional
loop runs last, so a populated optional label wins, then the required
labels, later writes shadowing earlier ones within each loop. -/
theorem objGet_gen (e : ExtractedFields) (n1 n2 n3 : Nat) (p : Platform) (k : String) :
    objGet (generatePlatformListing e n1 n2 n3 p) k =
      match lookupOpt (fieldMapping e n1 n2 n3) p (PLATFORM_FIELDS p).optional k with
      | some v => some v
      | none => lookupReq (fieldMapping e n1 n2 n3) p (PLATFORM_FIELDS p).required k := by
  rw [generatePlatformListing, objGet_foldl_opt, objGet_foldl_req]
  rcases lookupOpt (fieldMapping e n1 n2 n3) p (PLATFORM_FIELDS p).optional k with _ | v
  · rcases lookupReq (fieldMapping e n1 n2 n3) p (PLATFORM_FIELDS p).required k with _ | w <;>
      simp [objGet]
  · simp

/-- Key multiplicity in the generated listing. -/
theorem countKey_gen (e : ExtractedFields) (n1 n2 n3 : Nat) (p : Platform) (k : String) :
    countKey (generatePlatformListing e n1 n2 n3 p) k =
      if hasReqKey p (PLATFORM_FIELDS p).required k then 1
      else if hasOptKey (fieldMapping e n1 n2 n3) p (PLATFORM_FIELDS p).optional k then 1
      else 0 := by
  rw [generatePlatformListing, countKey_foldl_opt, countKey_foldl_req]
  by_cases h1 : hasReqKey p (PLATFORM_FIELDS p).required k <;>
    by_cases h2 : hasOptKey (fieldMapping e n1 n2 n3) p (PLATFORM_FIELDS p).optional k <;>
    simp [h1, h2, countKey]

/-! ### Matcher lemmas for the extractor claims -/

/-- `Char.toLower` maps only `'\n'` to `'\n'`. -/
theorem toLower_ne_nl (c : Char) (h : ¬ c = '\n') : ¬ c.toLower = '\n' := by
  intro hx
  simp only [Char.toLower] at hx
  by_cases h1 : c.toNat ≥ 65 ∧ c.toNat ≤ 90
  · rw [if_pos h1] at hx
    have hv : (c.toNat + 32).isValidChar := Or.inl (by omega)
    rw [Char.ofNat, dif_pos hv] at hx
    have h2 := congrArg Char.toNat hx
    rw [show (Char.ofNatAux (c.toNat + 32) hv).toNat = c.toNat + 32 from rfl] at h2
    rw [show Char.toNat '\n' = 10 from rfl] at h2
    omega
  · rw [if_neg h1] at hx
    exact h hx

theorem reMatch_nlOrEos_cons_ne {β : Type} (c : Char) (r : List Char)
    (g : List Char → Option β) (h : ¬ c = '\n') :
    reMatch nlOrEos (c :: r) g = none := by
  simp [nlOrEos, reMatch, ciPrefixRest, toLower_ne_nl c h, List.isEmpty]

theorem reMatch_nlOrEos_nl {β : Type} (r : List Char) (g : List Char → Option β) :
    reMatch nlOrEos ('\n' :: r) g = (g r <|> none) := by
  simp [nlOrEos, reMatch, ciPrefixRest, List.isEmpty]

theorem reMatch_nlOrEos_nil {β : Type} (g : List Char → Option β) :
    reMatch nlOrEos [] g = g [] := by
  simp [nlOrEos, reMatch, ciPrefixRest, List.isEmpty]

theorem reMatch_blankOrEos_cons_ne {β : Type} (c : Char) (r : List Char)
    (g : List Char → Option β) (h : ¬ c = '\n') :
    reMatch blankOrEos (c :: r) g = none := by
  simp [blankOrEos, reMatch, ciPrefixRest, toLower_ne_nl c h, List.isEmpty]

theorem reMatch_blankOrEos_blank {β : Type} (r : List Char) (g : List Char → Option β) :
    reMatch blankOrEos ('\n' :: '\n' :: r) g = (g r <|> none) := by
  simp [blankOrEos, reMatch, ciPrefixRest, List.isEmpty]

theorem reMatch_blankOrEos_nil {β : Type} (g : List Char → Option β) :
    reMatch blankOrEos [] g = g [] := by
  simp [blankOrEos, reMatch, ciPrefixRest, List.isEmpty]

/-- Greedy class repetition over a maximal run `u` followed by text `w`
whose head is outside the class: the longest-first strategy succeeds with
whatever the continuation produces on `w`. -/
theorem matchPlusGreedy_run {β : Type} (p : Char → Bool) (u w : List Char)
    (k : List Char → Option β) (x : β) (hu : ¬ u = [])
    (hall : ∀ c ∈ u, p c = true)
    (hw : ∀ c r, w = c :: r → p c = false) (hk : k w = some x) :
    matchPlusGreedy p (u ++ w) k = some x := by
  induction u with
  | nil => exact absurd rfl hu
  | cons c u2 ih =>
    have hc : p c = true := hall c (List.mem_cons_self c u2)
    cases u2 with
    | nil =>
      have hnone : matchPlusGreedy p w k = none := by
        cases w with
        | nil => rfl
        | cons c2 r => simp [matchPlusGreedy, hw c2 r rfl]
      simp [matchPlusGreedy, hc, hnone, hk]
    | cons d u3 =>
      have h2 := ih (by simp) (fun e he => hall e (List.mem_cons_of_mem c he))
      rw [List.cons_append, matchPlusGreedy, if_pos hc, h2]
      rfl

/-- Lazy class repetition over a run `v` of class characters followed by
`w`: if the continuation rejects every split inside `v` (its argument
then starts with a character of `v`) and accepts `w`, the shortest-first
strategy stops exactly at `w`. -/
theorem matchPlusLazy_run {β : Type} (p : Char → Bool) (v w : List Char)
    (k : List Char → Option β) (x : β) (hv : ¬ v = [])
    (hall : ∀ c ∈ v, p c = true)
    (hfail : ∀ c r, c ∈ v → k (c :: r) = none) (hk : k w = some x) :
    matchPlusLazy p (v ++ w) k = some x := by
  induction v with
  | nil => exact absurd rfl hv
  | cons c v2 ih =>
    have hc : p c = true := hall c (List.mem_cons_self c v2)
    cases v2 with
    | nil => simp [matchPlusLazy, hc, hk]
    | cons d v3 =>
      have h2 := ih (by simp) (fun e he => hall e (List.mem_cons_of_mem c he))
        (fun e r he => hfail e r (List.mem_cons_of_mem c he))
      have h3 : k ((d :: v3) ++ w) = none := by
        rw [List.cons_append]
        exact hfail d (v3 ++ w) (List.mem_cons_of_mem c (List.mem_cons_self d v3))
      rw [List.cons_append, matchPlusLazy, if_pos hc, h3, h2]
      rfl

/-- The capture arithmetic of `patMatchAt` on a split `v ++ w`. -/
theorem take_sub_append (v w : List Char) :
    (v ++ w).take ((v ++ w).length - w.length) = v := by
  rw [List.length_append, Nat.add_sub_cancel, List.take_left]

/-- The continuation applied after a pattern's capture: match the pattern
suffix and report the captured characters (`patMatchAt`'s inner closure). -/
def capCont (s1 : List Char) (post : RE) : List Char → Option (List Char) :=
  fun s2 => reMatch post s2 (fun _ => some (s1.take (s1.length - s2.length)))

/-- Core behavior of `[\s:]+(.+?)post` on `u ++ v ++ w`: a non-empty
separator run `u`, then a capture run `v` of dot-characters on which the
pattern suffix always fails, then a suffix `w` the pattern suffix accepts.
The greedy separator stops exactly before `v` and the lazy capture extends
exactly to `w`, capturing `v`. -/
theorem sepLineRun (post : RE) (u v w : List Char)
    (hu : ¬ u = []) (hus : ∀ c ∈ u, sepChar c = true)
    (hv : ¬ v = []) (hvd : ∀ c ∈ v, dotChar c = true)
    (hvh : ∀ c r, v = c :: r → sepChar c = false)
    (hpfail : ∀ (c : Char) (r : List Char) (g : List Char → Option (List Char)),
      c ∈ v → reMatch post (c :: r) g = none)
    (hpw : ∀ (y : List Char), reMatch post w (fun _ => some y) = some y) :
    matchPlusGreedy sepChar (u ++ (v ++ w))
      (fun s1 => reMatch lineCap s1 (capCont s1 post)) = some v := by
  apply matchPlusGreedy_run sepChar u (v ++ w) _ v hu hus
  · intro c r hcr
    cases v with
    | nil => exact absurd rfl hv
    | cons d t =>
      rw [List.cons_append] at hcr
      have : d = c := by injection hcr
      exact this ▸ hvh d t rfl
  · show reMatch lineCap (v ++ w) (capCont (v ++ w) post) = some v
    show matchPlusLazy dotChar (v ++ w) (capCont (v ++ w) post) = some v
    apply matchPlusLazy_run dotChar v w _ v hv hvd
    · intro c r hc
      exact hpfail c r _ hc
    · show reMatch post w
        (fun _ => some ((v ++ w).take ((v ++ w).length - w.length))) = some v
      rw [take_sub_append]
      exact hpw v

/-! ### Evaluating the lookups at concrete platforms -/

theorem lookupReq_none (fm : String → String) (p : Platform) (ls : List String)
    (k : String) (h : ∀ g ∈ ls, ¬ fkey p g = k) : lookupReq fm p ls k = none := by
  induction ls with
  | nil => rfl
  | cons f t ih =>
    rw [lookupReq, ih (fun g hg => h g (List.mem_cons_of_mem f hg))]
    rw [if_neg (h f (List.mem_cons_self f t))]

theorem lookupOpt_none (fm : String → String) (p : Platform) (ls : List String)
    (k : String) (h : ∀ g ∈ ls, ¬ fkey p g = k) : lookupOpt fm p ls k = none := by
  induction ls with
  | nil => rfl
  | cons f t ih =>
    rw [lookupOpt, ih (fun g hg => h g (List.mem_cons_of_mem f hg))]
    rw [if_neg (fun hc => h f (List.mem_cons_self f t) hc.1)]

theorem lookupReq_unique (fm : String → String) (p : Platform) (ls : List String)
    (k : String) (f0 : String) (hmem : f0 ∈ ls) (hk : fkey p f0 = k)
    (huniq : ∀ g ∈ ls, ¬ g = f0 → ¬ fkey p g = k) :
    lookupReq fm p ls k = some (jsOrS (fm f0) "[REQUIRED]") := by
  induction ls with
  | nil => exact absurd hmem (List.not_mem_nil f0)
  | cons f t ih =>
    by_cases hft : f0 ∈ t
    · rw [lookupReq, ih hft (fun g hg => huniq g (List.mem_cons_of_mem f hg))]
    · have hf : f = f0 := by
        rcases List.mem_cons.mp hmem with h | h
        · exact h.symm
        · exact absurd h hft
      have htail : lookupReq fm p t k = none := by
        apply lookupReq_none
        intro g hg
        exact huniq g (List.mem_cons_of_mem f hg)
          (fun he => hft (he ▸ hg))
      rw [lookupReq, htail, hf, if_pos hk]

theorem lookupOpt_unique (fm : String → String) (p : Platform) (ls : List String)
    (k : String) (f0 : String) (hmem : f0 ∈ ls) (hk : fkey p f0 = k)
    (huniq : ∀ g ∈ ls, ¬ g = f0 → ¬ fkey p g = k) :
    lookupOpt fm p ls k = if fm f0 = "" then none else some (fm f0) := by
  induction ls with
  | nil => exact absurd hmem (List.not_mem_nil f0)
  | cons f t ih =>
    by_cases hft : f0 ∈ t
    · have htail := ih hft (fun g hg => huniq g (List.mem_cons_of_mem f hg))
      rw [lookupOpt]
      by_cases hm : fm f0 = ""
      · rw [if_pos hm] at htail
        simp only [htail, if_pos hm]
        by_cases hff0 : f = f0
        · rw [if_neg (fun hc => hc.2 (hff0 ▸ hm))]
        · rw [if_neg (fun hc => huniq f (List.mem_cons_self f t) hff0 hc.1)]
      · rw [if_neg hm] at htail
        simp only [htail, if_neg hm]
    · have hf : f = f0 := by
        rcases List.mem_cons.mp hmem with h | h
        · exact h.symm
        · exact absurd h hft
      have htail : lookupOpt fm p t k = none := by
        apply lookupOpt_none
        intro g hg
        exact huniq g (List.mem_cons_of_mem f hg) (fun he => hft (he ▸ hg))
      rw [lookupOpt]
      simp only [htail, hf]
      by_cases hm : fm f0 = ""
      · rw [if_neg (fun hc => hc.2 hm), if_pos hm]
      · rw [if_pos (And.intro hk hm), if_neg hm]

/-- Pointwise agreement of the mapping on the labels whose key is `k`
transfers to the required-loop lookup. -/
theorem lookupReq_congr (fm1 fm2 : String → String) (p : Platform)
    (ls : List String) (k : String)
    (h : ∀ f ∈ ls, fkey p f = k → fm1 f = fm2 f) :
    lookupReq fm1 p ls k = lookupReq fm2 p ls k := by
  induction ls with
  | nil => rfl
  | cons f t ih =>
    rw [lookupReq, lookupReq, ih (fun g hg hk => h g (List.mem_cons_of_mem f hg) hk)]
    by_cases hkf : fkey p f = k
    · rw [h f (List.mem_cons_self f t) hkf]
    · rw [if_neg hkf, if_neg hkf]

/-- Pointwise agreement of the mapping on the labels whose key is `k`
transfers to the optional-loop lookup. -/
theorem lookupOpt_congr (fm1 fm2 : String → String) (p : Platform)
    (ls : List String) (k : String)
    (h : ∀ f ∈ ls, fkey p f = k → fm1 f = fm2 f) :
    lookupOpt fm1 p ls k = lookupOpt fm2 p ls k := by
  induction ls with
  | nil => rfl
  | cons f t ih =>
    rw [lookupOpt, lookupOpt, ih (fun g hg hk => h g (List.mem_cons_of_mem f hg) hk)]
    by_cases hkf : fkey p f = k
    · rw [h f (List.mem_cons_self f t) hkf]
    · rw [if_neg (fun hc => hkf hc.1), if_neg (fun hc => hkf hc.1)]

/-! ### Claim theorems -/

/-- An extraction result with no matched field. -/
def emptyExtracted : ExtractedFields := {}

/-- C1: for every platform and every extracted-fields map, the generated
record holds exactly one key per required label (carrying the mapped value
when non-empty and the sentinel `[REQUIRED]` otherwise) and at most one
key per optional label, an optional key being present exactly when its
mapped value is non-empty; no key of the record ever carries an empty
value. -/
theorem c1_listing_shape (p : Platform) (e : ExtractedFields) (n1 n2 n3 : Nat) :
    (∀ f ∈ (PLATFORM_FIELDS p).required,
       countKey (generatePlatformListing e n1 n2 n3 p) (fkey p f) = 1 ∧
       objGet (generatePlatformListing e n1 n2 n3 p) (fkey p f)
         = some (if fieldMapping e n1 n2 n3 f = "" then "[REQUIRED]"
                 else fieldMapping e n1 n2 n3 f)) ∧
    (∀ f ∈ (PLATFORM_FIELDS p).optional,
       countKey (generatePlatformListing e n1 n2 n3 p) (fkey p f) ≤ 1 ∧
       (¬ fieldMapping e n1 n2 n3 f = "" →
         objGet (generatePlatformListing e n1 n2 n3 p) (fkey p f)
           = some (fieldMapping e n1 n2 n3 f)) ∧
       (fieldMapping e n1 n2 n3 f = "" →
         objGet (generatePlatformListing e n1 n2 n3 p) (fkey p f) = none)) ∧
    (∀ k v, (k, v) ∈ generatePlatformListing e n1 n2 n3 p → ¬ v = "") := by
  refine ⟨?_, ?_, ?_⟩
  · intro f hf
    cases p <;> simp only [PLATFORM_FIELDS] at hf <;> fin_cases hf <;>
      exact ⟨by rw [countKey_gen, if_pos (by decide)],
             by rw [objGet_gen, lookupOpt_none _ _ _ _ (by decide),
                    lookupReq_unique _ _ _ _ _ (by decide) rfl (by decide)]; rfl⟩
  · intro f hf
    cases p <;> simp only [PLATFORM_FIELDS] at hf <;> fin_cases hf <;>
      refine ⟨by rw [countKey_gen, if_neg (by decide)]; split <;> simp,
              fun hne => ?_, fun heq => ?_⟩ <;>
      rw [objGet_gen, lookupOpt_unique _ _ _ _ _ (by decide) rfl (by decide)]
    all_goals first
      | (rw [if_neg hne]; try rfl)
      | (rw [if_pos heq, lookupReq_none _ _ _ _ (by decide)]; try rfl)
  · intro k v hmem
    simp only [generatePlatformListing] at hmem
    rcases mem_foldl_opt _ _ _ _ _ hmem with h2 | ⟨f, hf, hne, hx⟩
    · rcases mem_foldl_req _ _ _ _ _ h2 with h3 | ⟨f, hf, hx⟩
      · simp at h3
      · have hv : v = jsOrS (fieldMapping e n1 n2 n3 f) "[REQUIRED]" :=
          congrArg Prod.snd hx
        rw [hv, jsOrS]
        by_cases hm : fieldMapping e n1 n2 n3 f = ""
        · rw [if_pos hm]; decide
        · rw [if_neg hm]; exact hm
    · have hv : v = fieldMapping e n1 n2 n3 f := congrArg Prod.snd hx
      rw [hv]; exact hne

/-- Witness for C1 at a concrete platform, field map and label. -/
theorem c1_listing_shape_witness :
    countKey (generatePlatformListing emptyExtracted 1 2 3 Platform.amazon)
        (fkey Platform.amazon "Brand") = 1 ∧
    objGet (generatePlatformListing emptyExtracted 1 2 3 Platform.amazon)
        (fkey Platform.amazon "Brand")
      = some (if fieldMapping emptyExtracted 1 2 3 "Brand" = "" then "[REQUIRED]"
              else fieldMapping emptyExtracted 1 2 3 "Brand") :=
  (c1_listing_shape Platform.amazon emptyExtracted 1 2 3).1 "Brand" (by decide)

/-- C2 counterexample: with no `brand` extracted, the `Brand` label maps
to the default `"Generic"`, not to the empty string, so `AMAZON_Brand`
carries `"Generic"` rather than the sentinel `[REQUIRED]`. -/
theorem c2_counterexample :
    emptyExtracted.brand = none ∧
    fieldMapping emptyExtracted 0 0 0 "Brand" = "Generic" ∧
    objGet (generatePlatformListing emptyExtracted 0 0 0 Platform.amazon)
        "AMAZON_Brand" = some "Generic" ∧
    ¬ objGet (generatePlatformListing emptyExtracted 0 0 0 Platform.amazon)
        "AMAZON_Brand" = some "[REQUIRED]" := by
  refine ⟨rfl, rfl, by decide, by decide⟩

/-- C2 (amended): every non-derived label other than `Brand` maps directly
from its extracted field, or to the empty string when absent; `Brand`
instead defaults to `"Generic"` when absent, so a `{PLATFORM}_Brand` key
carries `"Generic"` and never the sentinel `[REQUIRED]`. -/
theorem c2_amended (e : ExtractedFields) (n1 n2 n3 : Nat) :
    (e.brand = none →
      fieldMapping e n1 n2 n3 "Brand" = "Generic" ∧
      ∀ p : Platform,
        ¬ objGet (generatePlatformListing e n1 n2 n3 p) (fkey p "Brand")
          = some "[REQUIRED]") ∧
    fieldMapping e n1 n2 n3 "Product Name" = jsOr e.name "" ∧
    fieldMapping e n1 n2 n3 "Category" = jsOr e.category "" ∧
    fieldMapping e n1 n2 n3 "Price" = jsOr e.price "" ∧
    fieldMapping e n1 n2 n3 "Selling Price" = jsOr e.price "" ∧
    fieldMapping e n1 n2 n3 "Listing Price" = jsOr e.price "" ∧
    fieldMapping e n1 n2 n3 "Description" = jsOr e.description "" ∧
    fieldMapping e n1 n2 n3 "Product Description" = jsOr e.description "" ∧
    fieldMapping e n1 n2 n3 "Size" = jsOr e.size "" ∧
    fieldMapping e n1 n2 n3 "Color" = jsOr e.color "" ∧
    fieldMapping e n1 n2 n3 "Material" = jsOr e.material "" ∧
    fieldMapping e n1 n2 n3 "Weight" = jsOr e.weight "" ∧
    fieldMapping e n1 n2 n3 "Package Weight" = jsOr e.weight "" ∧
    fieldMapping e n1 n2 n3 "Brand" = jsOr e.brand "Generic" := by
  refine ⟨?_, rfl, rfl, rfl, rfl, rfl, rfl, rfl, rfl, rfl, rfl, rfl, rfl, rfl⟩
  intro hb
  have hbg : fieldMapping e n1 n2 n3 "Brand" = "Generic" := by
    show jsOr e.brand "Generic" = "Generic"
    rw [hb]
    rfl
  refine ⟨hbg, ?_⟩
  intro p
  cases p
  case amazon =>
    rw [objGet_gen, lookupOpt_none _ _ _ _ (by decide),
      lookupReq_unique _ _ _ _ "Brand" (by decide) rfl (by decide), hbg]
    simp [jsOrS]
  case flipkart =>
    rw [objGet_gen, lookupOpt_none _ _ _ _ (by decide),
      lookupReq_unique _ _ _ _ "Brand" (by decide) rfl (by decide), hbg]
    simp [jsOrS]
  case meesho =>
    rw [objGet_gen, lookupOpt_unique _ _ _ _ "Brand" (by decide) rfl (by decide), hbg]
    simp
  case myntra =>
    rw [objGet_gen, lookupOpt_none _ _ _ _ (by decide),
      lookupReq_unique _ _ _ _ "Brand" (by decide) rfl (by decide), hbg]
    simp [jsOrS]

/-- Witness for the amended C2 at the empty field map. -/
theorem c2_amended_witness :
    fieldMapping emptyExtracted 0 0 0 "Brand" = "Generic" ∧
    ∀ p : Platform,
      ¬ objGet (generatePlatformListing emptyExtracted 0 0 0 p) (fkey p "Brand")
        = some "[REQUIRED]" :=
  (c2_amended emptyExtracted 0 0 0).1 rfl

/-- Away from the three identifier labels, the mapping table does not
depend on the `Date.now()` parameters. -/
theorem fieldMapping_congr_of_ne (e : ExtractedFields) (n1 n2 n3 m1 m2 m3 : Nat)
    (f : String) (hf1 : ¬ f = "SKU") (hf2 : ¬ f = "Product ID")
    (hf3 : ¬ f = "Style ID") :
    fieldMapping e n1 n2 n3 f = fieldMapping e m1 m2 m3 f := by
  simp only [fieldMapping, hf1, hf2, hf3, if_false]

/-- With a non-empty extracted sku, the mapping table does not depend on
the `Date.now()` parameters at all. -/
theorem fieldMapping_congr_of_sku (e : ExtractedFields) (n1 n2 n3 m1 m2 m3 : Nat)
    (s : String) (hs : e.sku = some s) (hne : ¬ s = "") :
    fieldMapping e n1 n2 n3 = fieldMapping e m1 m2 m3 := by
  funext f
  by_cases hf1 : f = "SKU"
  · subst hf1
    show jsOr e.sku ("SKU" ++ toString n1) = jsOr e.sku ("SKU" ++ toString m1)
    rw [hs]
    simp [jsOr, hne]
  · by_cases hf2 : f = "Product ID"
    · subst hf2
      show jsOr e.sku ("PID" ++ toString n2) = jsOr e.sku ("PID" ++ toString m2)
      rw [hs]
      simp [jsOr, hne]
    · by_cases hf3 : f = "Style ID"
      · subst hf3
        show jsOr e.sku ("STYLE" ++ toString n3) = jsOr e.sku ("STYLE" ++ toString m3)
        rw [hs]
        simp [jsOr, hne]
      · exact fieldMapping_congr_of_ne e n1 n2 n3 m1 m2 m3 f hf1 hf2 hf3

/-- C8 counterexample: an extracted sku can be present yet empty — on the
raw data "sku: \n" the separator backtracks and the capture is the lone
space, which trims to "" — and the empty string is falsy in JS, so the
`extractedData.sku || ...` fallbacks still take the time-derived
identifiers: two runs with different clock values differ although the
sku field is present, refuting "when sku is present the function is
fully deterministic". -/
theorem c8_counterexample :
    (extractProductInfo "sku: \n").sku = some "" ∧
    objGet (generatePlatformListing (extractProductInfo "sku: \n") 1 2 3
        Platform.amazon) "AMAZON_SKU" = some "SKU1" ∧
    objGet (generatePlatformListing (extractProductInfo "sku: \n") 4 5 6
        Platform.amazon) "AMAZON_SKU" = some "SKU4" ∧
    ¬ generatePlatformListing (extractProductInfo "sku: \n") 1 2 3 Platform.amazon
      = generatePlatformListing (extractProductInfo "sku: \n") 4 5 6 Platform.amazon :=
  ⟨rfl, rfl, rfl, by decide⟩

/-- C8 (amended): two runs of the listing generator on the same fields
and platform agree on every key other than the three time-derived
identifier keys, which may differ exactly when the extracted sku is
absent or empty (both are falsy in JS); when a non-empty `sku` was
extracted the generator is fully deterministic: the two records are
equal. -/
theorem c8_idempotence (e : ExtractedFields) (p : Platform)
    (n1 n2 n3 m1 m2 m3 : Nat) :
    (∀ k, ¬ k = fkey p "SKU" → ¬ k = fkey p "Product ID" →
       ¬ k = fkey p "Style ID" →
       objGet (generatePlatformListing e n1 n2 n3 p) k
         = objGet (generatePlatformListing e m1 m2 m3 p) k) ∧
    (∀ s, e.sku = some s → ¬ s = "" →
       generatePlatformListing e n1 n2 n3 p = generatePlatformListing e m1 m2 m3 p) := by
  constructor
  · intro k h1 h2 h3
    have hagree : ∀ f, ¬ f = "SKU" → ¬ f = "Product ID" → ¬ f = "Style ID" →
        fieldMapping e n1 n2 n3 f = fieldMapping e m1 m2 m3 f :=
      fun f => fieldMapping_congr_of_ne e n1 n2 n3 m1 m2 m3 f
    have hO : ∀ f ∈ (PLATFORM_FIELDS p).optional, fkey p f = k →
        fieldMapping e n1 n2 n3 f = fieldMapping e m1 m2 m3 f := by
      intro f _ hk
      refine hagree f ?_ ?_ ?_ <;> rintro rfl
      · exact h1 hk.symm
      · exact h2 hk.symm
      · exact h3 hk.symm
    have hR : ∀ f ∈ (PLATFORM_FIELDS p).required, fkey p f = k →
        fieldMapping e n1 n2 n3 f = fieldMapping e m1 m2 m3 f := by
      intro f _ hk
      refine hagree f ?_ ?_ ?_ <;> rintro rfl
      · exact h1 hk.symm
      · exact h2 hk.symm
      · exact h3 hk.symm
    rw [objGet_gen, objGet_gen, lookupOpt_congr _ _ p _ k hO,
      lookupReq_congr _ _ p _ k hR]
  · intro s hs hne
    have hfm : fieldMapping e n1 n2 n3 = fieldMapping e m1 m2 m3 :=
      fieldMapping_congr_of_sku e n1 n2 n3 m1 m2 m3 s hs hne
    simp only [generatePlatformListing, hfm]

/-- Witness for C8: with an extracted sku, two runs at different clock
values coincide exactly. -/
theorem c8_idempotence_witness :
    generatePlatformListing { sku := some "X9" } 1 2 3 Platform.amazon
      = generatePlatformListing { sku := some "X9" } 4 5 6 Platform.amazon :=
  (c8_idempotence { sku := some "X9" } Platform.amazon 1 2 3 4 5 6).2 "X9" rfl
    (by decide)

/-- C7: when the intent is catalog and the raw text is non-empty, the
handler returns the input catalog with exactly one new merged row appended
(the input list itself is unchanged — the result is a fresh list); for the
task, help and general intents no updated catalog is returned. -/
theorem c7_catalog_append_frame (message : String) (catalogData : List Obj)
    (rawData : String) (clock : Nat → Nat) :
    (intentOf message = "catalog" → ¬ rawData = "" →
      (POST message catalogData rawData clock).updatedCatalog
        = some (catalogData ++
            [buildNewItem (extractProductInfo rawData) (platformsOf message) clock])) ∧
    (intentOf message = "task" ∨ intentOf message = "help" ∨
        intentOf message = "general" →
      (POST message catalogData rawData clock).updatedCatalog = none) := by
  constructor
  · intro hi hr
    simp [POST, hi, hr]
  · intro hi
    rcases hi with h | h | h <;> simp [POST, h]

/-- Witness for C7: one catalog request appends a row, one task request
leaves the catalog untouched. -/
theorem c7_catalog_append_frame_witness :
    (POST "catalog" [] "Brand: Acme" (fun _ => 7)).updatedCatalog
      = some ([] ++ [buildNewItem (extractProductInfo "Brand: Acme")
          (platformsOf "catalog") (fun _ => 7)]) ∧
    (POST "what tasks do I have" [] "" (fun _ => 0)).updatedCatalog = none :=
  ⟨(c7_catalog_append_frame "catalog" [] "Brand: Acme" (fun _ => 7)).1 rfl
      (by decide),
   (c7_catalog_append_frame "what tasks do I have" [] "" (fun _ => 0)).2
      (Or.inl rfl)⟩

/-- C9: an analyze-intent message that mentions none of the four
marketplace names resolves to an empty platform list (the all-four default
applies only to the catalog intent), so on any non-empty catalog the
analyze branch checks zero required fields and answers with the
catalog-looks-complete response regardless of the first row's contents. -/
theorem c9_analyze_empty_platforms (message : String)
    (hintent : intentOf message = "analyze")
    (hamz : jsIncludes (jsToLower message) "amazon" = false)
    (hflp : jsIncludes (jsToLower message) "flipkart" = false)
    (hmee : jsIncludes (jsToLower message) "meesho" = false)
    (hmyn : jsIncludes (jsToLower message) "myntra" = false) :
    (analyzeMessage message).platforms = [] ∧
    ∀ (item : Obj) (rest : List Obj) (rawData : String) (clock : Nat → Nat),
      (POST message (item :: rest) rawData clock).response
        = "Great! Your catalog looks complete for . All required fields are filled. You\x27re ready to list your products!" ∧
      (POST message (item :: rest) rawData clock).updatedCatalog = none := by
  have hpl : platformsOf message = [] := by
    simp [platformsOf, hamz, hflp, hmee, hmyn, hintent]
  refine ⟨by simp [analyzeMessage, hpl], ?_⟩
  intro item rest rawData clock
  have hres : POST message (item :: rest) rawData clock
      = { response := analysisCompleteResponse [], updatedCatalog := none } := by
    simp [POST, hintent, hpl, missingFieldsOf]
  rw [hres]
  exact ⟨rfl, rfl⟩

/-- Witness for C9 on a concrete analyze message and a one-row catalog
whose row is missing every platform key. -/
theorem c9_analyze_empty_platforms_witness :
    (analyzeMessage "check stock").platforms = [] ∧
    (POST "check stock" [[("a", "b")]] "" (fun _ => 0)).response
      = "Great! Your catalog looks complete for . All required fields are filled. You\x27re ready to list your products!" ∧
    (POST "check stock" [[("a", "b")]] "" (fun _ => 0)).updatedCatalog = none := by
  have h := c9_analyze_empty_platforms "check stock" rfl rfl rfl rfl rfl
  exact ⟨h.1, (h.2 [("a", "b")] [] "" (fun _ => 0)).1,
    (h.2 [("a", "b")] [] "" (fun _ => 0)).2⟩

/-- C4 counterexample: the message "analyze my catalog" contains the
substring "catalog", which has priority over "analyze", so the handler
runs the catalog branch and (with no raw data) answers with the
listing-guidance template, not the no-catalog-loaded text. -/
theorem c4_counterexample :
    intentOf "analyze my catalog" = "catalog" ∧
    ¬ (POST "analyze my catalog" [] "" (fun _ => 0)).response
      = "No catalog loaded. Please upload a catalog file first." ∧
    (POST "analyze my catalog" [] "" (fun _ => 0)).response
      = catalogGuidanceResponse
          [Platform.amazon, Platform.flipkart, Platform.meesho, Platform.myntra] :=
  ⟨rfl, by decide, rfl⟩

/-- C4 (amended): an analyze-intent message without a catalog keyword
(for example "analyze my data") together with an empty catalog yields
exactly the no-catalog-loaded response and no catalog mutation, while the
literal message "analyze my catalog" resolves to the catalog intent and
also mutates nothing when no raw data is supplied. -/
theorem c4_amended :
    (POST "analyze my data" [] "" (fun _ => 0)).response
      = "No catalog loaded. Please upload a catalog file first." ∧
    (POST "analyze my data" [] "" (fun _ => 0)).updatedCatalog = none ∧
    intentOf "analyze my catalog" = "catalog" ∧
    (POST "analyze my catalog" [] "" (fun _ => 0)).updatedCatalog = none :=
  ⟨rfl, rfl, rfl, rfl⟩

/-- C3 counterexample: the input "Price: 5001" contains the substring
"Price: 500", yet the greedy digit capture extracts "5001", not "500". -/
theorem c3_counterexample :
    jsIncludes "Price: 5001" "Price: 500" = true ∧
    (extractProductInfo "Price: 5001").price = some "5001" ∧
    ¬ (extractProductInfo "Price: 5001").price = some "500" :=
  ⟨rfl, rfl, by decide⟩

/-- C3 (amended): for the input "Price: 500" the extractor yields
price = "500" and the MRP label maps to "600.00" (the double product
`500 * 1.2` is exactly 600, so exact and IEEE arithmetic coincide here);
when the price field is absent the MRP label maps to the empty string.
The original per-substring universal fails because the digit capture is
greedy and an earlier price/selling-price/mrp label can match first; the
double-rounding behavior of `toFixed(2)` on other prices is left
unasserted. -/
theorem c3_amended (n1 n2 n3 : Nat) :
    (extractProductInfo "Price: 500").price = some "500" ∧
    fieldMapping (extractProductInfo "Price: 500") n1 n2 n3 "MRP" = "600.00" ∧
    objGet (generatePlatformListing (extractProductInfo "Price: 500") n1 n2 n3
        Platform.amazon) "AMAZON_MRP" = some "600.00" ∧
    (∀ e : ExtractedFields, e.price = none → fieldMapping e n1 n2 n3 "MRP" = "") := by
  refine ⟨rfl, rfl, rfl, ?_⟩
  intro e he
  show (match e.price with
        | some p => if p = "" then "" else mrpOf p
        | none => "") = ""
  rw [he]

/-- Witness for the amended C3: the price-absent clause at the empty
field map. -/
theorem c3_amended_witness :
    fieldMapping emptyExtracted 0 0 0 "MRP" = "" :=
  (c3_amended 0 0 0).2.2.2 emptyExtracted rfl

/-- C5 counterexample: "brand X\nBrand: Acme" contains the line
"Brand: Acme", but the leftmost match of the brand pattern is the word
"brand" on the first line, so the extractor yields brand = "X". -/
theorem c5_counterexample :
    ("brand X\nBrand: Acme".data.splitOn '\n').contains "Brand: Acme".data = true ∧
    (extractProductInfo "brand X\nBrand: Acme").brand = some "X" ∧
    ¬ (extractProductInfo "brand X\nBrand: Acme").brand = some "Acme" :=
  ⟨by decide, rfl, by decide⟩

/-- C5 (amended): every input that starts with the line "Brand: Acme"
yields brand = "Acme"; containing such a line elsewhere is not enough,
because an earlier occurrence of a brand/manufacturer label takes
precedence under leftmost-match semantics. -/
theorem c5_amended (s : String) :
    (extractProductInfo ("Brand: Acme\n" ++ s)).brand = some "Acme" := by
  have key : patMatchAt (linePre ["brand", "manufacturer"]) lineCap nlOrEos
      ('B' :: 'r' :: 'a' :: 'n' :: 'd' :: ':' :: ' ' :: 'A' :: 'c' :: 'm' :: 'e'
        :: '\n' :: s.data) = some "Acme".data := by
    have h := sepLineRun nlOrEos [':', ' '] "Acme".data ('\n' :: s.data)
      (by simp)
      (by intro ch hch; rcases List.mem_pair.mp hch with rfl | rfl <;> decide)
      (by decide) (by decide)
      (by intro d r hdr; injection hdr with h1 h2; rw [← h1]; decide)
      (by intro d r g hd
          refine reMatch_nlOrEos_cons_ne d r g ?_
          fin_cases hd <;> decide)
      (by intro y; rw [reMatch_nlOrEos_nl]; rfl)
    have h2 : patMatchAt (linePre ["brand", "manufacturer"]) lineCap nlOrEos
        ('B' :: 'r' :: 'a' :: 'n' :: 'd' :: ':' :: ' ' :: 'A' :: 'c' :: 'm' :: 'e'
          :: '\n' :: s.data)
        = (matchPlusGreedy sepChar ([':', ' '] ++ ("Acme".data ++ ('\n' :: s.data)))
            (fun s1 => reMatch lineCap s1 (capCont s1 nlOrEos)) <|> none) := rfl
    rw [h2, h]
    rfl
  have hdata : ("Brand: Acme\n" ++ s).data
      = 'B' :: 'r' :: 'a' :: 'n' :: 'd' :: ':' :: ' ' :: 'A' :: 'c' :: 'm' :: 'e'
        :: '\n' :: s.data := by
    simp [String.data_append]
  show runPat (linePre ["brand", "manufacturer"]) lineCap nlOrEos
      (("Brand: Acme\n" ++ s).data) = some "Acme"
  rw [hdata, runPat, patSearch, key]
  rfl

/-- C6 counterexample: a description that continues past its own line
with no intervening blank line does not match at all (the dot in the
capture cannot cross a newline), so the description field is absent
rather than capturing the text up to the blank line or input end. -/
theorem c6_counterexample :
    (extractProductInfo "Description: red shirt\nmade of cotton\n\nSize: M").description
      = none ∧
    (extractProductInfo "Description: a\nb").description = none :=
  ⟨rfl, rfl⟩

/-- C6 (amended): a matched description is a single-line segment that must
be immediately followed by a blank line or the end of the input, and the
captured value is that line (trimmed); a description whose first line is
followed by a non-blank second line makes the pattern fail there, leaving
the field absent. -/
theorem c6_amended (v rest : List Char) (c : Char) (t : List Char)
    (hv : v = c :: t) (hc : sepChar c = false)
    (hall : ∀ ch ∈ v, ch ≠ '\n' ∧ ch ≠ '\r') :
    (extractProductInfo ("Description: " ++ String.mk v)).description
      = some (String.mk (trimChars v)) ∧
    (extractProductInfo ("Description: " ++ String.mk v ++ "\n\n"
        ++ String.mk rest)).description
      = some (String.mk (trimChars v)) ∧
    (extractProductInfo "Details: a\nb").description = none := by
  have hvd : ∀ ch ∈ v, dotChar ch = true := by
    intro ch hch
    have h2 := hall ch hch
    simp [dotChar, h2.1, h2.2]
  have hne : ¬ v = [] := by rw [hv]; simp
  have hus : ∀ ch ∈ ([':', ' '] : List Char), sepChar ch = true := by
    intro ch hch; rcases List.mem_pair.mp hch with rfl | rfl <;> decide
  have hvh : ∀ d r, v = d :: r → sepChar d = false := by
    intro d r hdr
    rw [hv] at hdr
    injection hdr with h1 h2
    rw [← h1]; exact hc
  refine ⟨?_, ?_, by decide⟩
  · have h := sepLineRun blankOrEos [':', ' '] v []
      (by simp) hus hne hvd hvh
      (by intro d r g hd
          exact reMatch_blankOrEos_cons_ne d r g (hall d hd).1)
      (fun y => reMatch_blankOrEos_nil _)
    rw [List.append_nil] at h
    have key : patMatchAt (linePre ["description", "details"]) lineCap blankOrEos
        ('D' :: 'e' :: 's' :: 'c' :: 'r' :: 'i' :: 'p' :: 't' :: 'i' :: 'o' :: 'n'
          :: ':' :: ' ' :: v) = some v := by
      have h2 : patMatchAt (linePre ["description", "details"]) lineCap blankOrEos
          ('D' :: 'e' :: 's' :: 'c' :: 'r' :: 'i' :: 'p' :: 't' :: 'i' :: 'o' :: 'n'
            :: ':' :: ' ' :: v)
          = (matchPlusGreedy sepChar ([':', ' '] ++ v)
              (fun s1 => reMatch lineCap s1 (capCont s1 blankOrEos)) <|> none) := rfl
      rw [h2, h]
      rfl
    have hdata : ("Description: " ++ String.mk v).data
        = 'D' :: 'e' :: 's' :: 'c' :: 'r' :: 'i' :: 'p' :: 't' :: 'i' :: 'o' :: 'n'
          :: ':' :: ' ' :: v := by
      simp [String.data_append]
    show runPat (linePre ["description", "details"]) lineCap blankOrEos
        (("Description: " ++ String.mk v).data) = some (String.mk (trimChars v))
    rw [hdata, runPat, patSearch, key]
    rfl
  · have h := sepLineRun blankOrEos [':', ' '] v ('\n' :: '\n' :: rest)
      (by simp) hus hne hvd hvh
      (by intro d r g hd
          exact reMatch_blankOrEos_cons_ne d r g (hall d hd).1)
      (by intro y; rw [reMatch_blankOrEos_blank]; rfl)
    have key : patMatchAt (linePre ["description", "details"]) lineCap blankOrEos
        ('D' :: 'e' :: 's' :: 'c' :: 'r' :: 'i' :: 'p' :: 't' :: 'i' :: 'o' :: 'n'
          :: ':' :: ' ' :: (v ++ '\n' :: '\n' :: rest)) = some v := by
      have h2 : patMatchAt (linePre ["description", "details"]) lineCap blankOrEos
          ('D' :: 'e' :: 's' :: 'c' :: 'r' :: 'i' :: 'p' :: 't' :: 'i' :: 'o' :: 'n'
            :: ':' :: ' ' :: (v ++ '\n' :: '\n' :: rest))
          = (matchPlusGreedy sepChar ([':', ' '] ++ (v ++ ('\n' :: '\n' :: rest)))
              (fun s1 => reMatch lineCap s1 (capCont s1 blankOrEos)) <|> none) := rfl
      rw [h2, h]
      rfl
    have hdata : ("Description: " ++ String.mk v ++ "\n\n" ++ String.mk rest).data
        = 'D' :: 'e' :: 's' :: 'c' :: 'r' :: 'i' :: 'p' :: 't' :: 'i' :: 'o' :: 'n'
          :: ':' :: ' ' :: (v ++ '\n' :: '\n' :: rest) := by
      simp [String.data_append]
    show runPat (linePre ["description", "details"]) lineCap blankOrEos
        (("Description: " ++ String.mk v ++ "\n\n" ++ String.mk rest).data)
      = some (String.mk (trimChars v))
    rw [hdata, runPat, patSearch, key]
    rfl

/-- C10: the separator `[\s:]+` matches newline characters, so a trigger
label followed by just a colon at the end of its line captures the text of
the following line (trimmed) as the field value — for example
"Size:\nColor: Blue" yields size = "Color: Blue" — instead of leaving the
field absent or capturing only the label's own line. -/
theorem c10_separator_crosses_newlines (v rest : List Char) (c : Char) (t : List Char)
    (hv : v = c :: t) (hc : sepChar c = false)
    (hall : ∀ ch ∈ v, ch ≠ '\n' ∧ ch ≠ '\r') :
    (extractProductInfo ("Size:\n" ++ String.mk v)).size
      = some (String.mk (trimChars v)) ∧
    (extractProductInfo ("Size:\n" ++ String.mk v ++ "\n" ++ String.mk rest)).size
      = some (String.mk (trimChars v)) := by
  have hvd : ∀ ch ∈ v, dotChar ch = true := by
    intro ch hch
    have h2 := hall ch hch
    simp [dotChar, h2.1, h2.2]
  have hne : ¬ v = [] := by rw [hv]; simp
  have hus : ∀ ch ∈ ([':', '\n'] : List Char), sepChar ch = true := by
    intro ch hch; rcases List.mem_pair.mp hch with rfl | rfl <;> decide
  have hvh : ∀ d r, v = d :: r → sepChar d = false := by
    intro d r hdr
    rw [hv] at hdr
    injection hdr with h1 h2
    rw [← h1]; exact hc
  constructor
  · have h := sepLineRun nlOrEos [':', '\n'] v []
      (by simp) hus hne hvd hvh
      (by intro d r g hd
          exact reMatch_nlOrEos_cons_ne d r g (hall d hd).1)
      (fun y => reMatch_nlOrEos_nil _)
    rw [List.append_nil] at h
    have key : patMatchAt (linePre ["size"]) lineCap nlOrEos
        ('S' :: 'i' :: 'z' :: 'e' :: ':' :: '\n' :: v) = some v := by
      have h2 : patMatchAt (linePre ["size"]) lineCap nlOrEos
          ('S' :: 'i' :: 'z' :: 'e' :: ':' :: '\n' :: v)
          = matchPlusGreedy sepChar ([':', '\n'] ++ v)
              (fun s1 => reMatch lineCap s1 (capCont s1 nlOrEos)) := rfl
      rw [h2, h]
    have hdata : ("Size:\n" ++ String.mk v).data
        = 'S' :: 'i' :: 'z' :: 'e' :: ':' :: '\n' :: v := by
      simp [String.data_append]
    show runPat (linePre ["size"]) lineCap nlOrEos
        (("Size:\n" ++ String.mk v).data) = some (String.mk (trimChars v))
    rw [hdata, runPat, patSearch, key]
    rfl
  · have h := sepLineRun nlOrEos [':', '\n'] v ('\n' :: rest)
      (by simp) hus hne hvd hvh
      (by intro d r g hd
          exact reMatch_nlOrEos_cons_ne d r g (hall d hd).1)
      (by intro y; rw [reMatch_nlOrEos_nl]; rfl)
    have key : patMatchAt (linePre ["size"]) lineCap nlOrEos
        ('S' :: 'i' :: 'z' :: 'e' :: ':' :: '\n' :: (v ++ '\n' :: rest)) = some v := by
      have h2 : patMatchAt (linePre ["size"]) lineCap nlOrEos
          ('S' :: 'i' :: 'z' :: 'e' :: ':' :: '\n' :: (v ++ '\n' :: rest))
          = matchPlusGreedy sepChar ([':', '\n'] ++ (v ++ ('\n' :: rest)))
              (fun s1 => reMatch lineCap s1 (capCont s1 nlOrEos)) := rfl
      rw [h2, h]
    have hdata : ("Size:\n" ++ String.mk v ++ "\n" ++ String.mk rest).data
        = 'S' :: 'i' :: 'z' :: 'e' :: ':' :: '\n' :: (v ++ '\n' :: rest) := by
      simp [String.data_append]
    show runPat (linePre ["size"]) lineCap nlOrEos
        (("Size:\n" ++ String.mk v ++ "\n" ++ String.mk rest).data)
      = some (String.mk (trimChars v))
    rw [hdata, runPat, patSearch, key]
    rfl

/-- Witness for C10 at the example input of the claim. -/
theorem c10_separator_crosses_newlines_witness :
    (extractProductInfo "Size:\nColor: Blue").size = some "Color: Blue" ∧
    (extractProductInfo "Size:\nColor: Blue\nmore").size = some "Color: Blue" := by
  have h := c10_separator_crosses_newlines "Color: Blue".data "more".data 'C' "olor: Blue".data rfl
    (by decide) (by decide)
  exact ⟨h.1, h.2⟩

/-- Witness for the amended C6 at concrete inputs. -/
theorem c6_amended_witness :
    (extractProductInfo "Description: Red shirt").description = some "Red shirt" ∧
    (extractProductInfo "Description: Red shirt\n\nSize: M").description
      = some "Red shirt" ∧
    (extractProductInfo "Details: a\nb").description = none := by
  have h := c6_amended "Red shirt".data "Size: M".data 'R' "ed shirt".data rfl
    (by decide) (by decide)
  exact ⟨h.1, h.2.1, h.2.2⟩
